import Mathlib

/- Shallow embedding of the swag-mcp endpoint normalization and dispatch
   engine (src/swagger-mcp-simple.ts and src/postman-mcp-simple.ts).

   JavaScript strings are modelled as Lean `String` values (lists of
   characters); JavaScript objects used as string-keyed records are
   modelled as association lists in insertion order, to reflect the
   insertion-ordered key enumeration of `Object.entries`/`Object.keys`.
   All definitions are executable. -/

namespace SwagMcp

/-- JS truthiness of an optional string field: `undefined` and `""` are falsy. -/
def jsTruthy : Option String → Bool
  | none => false
  | some s => if s = "" then false else true

/-- Does `pat` occur at the start of the character list? -/
def leadsWith : List Char → List Char → Bool
  | [], _ => true
  | _ :: _, [] => false
  | p :: ps, c :: cs => if p = c then leadsWith ps cs else false

/-- Does `pat` occur anywhere inside `s`?  (JS `String.prototype.includes`:
the empty pattern occurs in every string.) -/
def containsSub (pat : List Char) : List Char → Bool
  | [] => leadsWith pat []
  | c :: cs => leadsWith pat (c :: cs) || containsSub pat cs

/-- JS `s.includes(sub)`. -/
def jsIncludes (s sub : String) : Bool := containsSub sub.data s.data

/-- JS `s.startsWith(pre)`. -/
def jsStartsWith (s pre : String) : Bool := leadsWith pre.data s.data

/-- JS `s.endsWith(suf)`. -/
def jsEndsWith (s suf : String) : Bool := leadsWith suf.data.reverse s.data.reverse

/-- Replace the first occurrence of `pat` (JS `String.prototype.replace` with a
string pattern replaces only the first occurrence; the replacement strings used
by the source are `encodeURIComponent` outputs, which contain no `$` patterns). -/
def replaceFirstL (pat rep : List Char) : List Char → List Char
  | [] => if pat = [] then rep else []
  | c :: cs =>
    if leadsWith pat (c :: cs) then rep ++ (c :: cs).drop pat.length
    else c :: replaceFirstL pat rep cs

/-- JS `s.replace(pat, rep)` with a plain-string pattern. -/
def jsReplaceFirst (s pat rep : String) : String := ⟨replaceFirstL pat.data rep.data s.data⟩

/-- Split on every single occurrence of a separator character, JS
`String.prototype.split` style: `"".split(" ") = [""]`, adjacent separators
produce empty pieces. -/
def splitOnCharL (sep : Char) : List Char → List (List Char)
  | [] => [[]]
  | c :: cs =>
    match splitOnCharL sep cs with
    | [] => if c = sep then [[], []] else [[c]]
    | w :: ws => if c = sep then [] :: w :: ws else (c :: w) :: ws

/-- JS `s.split(" ")`. -/
def jsSplitSpace (s : String) : List String := (splitOnCharL ' ' s.data).map fun l => ⟨l⟩

/-- JS `s.split("/")`. -/
def jsSplitSlash (s : String) : List String := (splitOnCharL '/' s.data).map fun l => ⟨l⟩

/-- `toLowerCase` (ASCII; all identifiers handled by the server are ASCII). -/
def jsToLower (s : String) : String := ⟨s.data.map Char.toLower⟩

/-- `toUpperCase` (ASCII). -/
def jsToUpper (s : String) : String := ⟨s.data.map Char.toUpper⟩

/-- The `\w` = `[A-Za-z0-9_]` character class of the source's regexes. -/
def isWordChar (c : Char) : Bool :=
  decide (97 ≤ c.toNat ∧ c.toNat ≤ 122) || decide (65 ≤ c.toNat ∧ c.toNat ≤ 90) ||
  decide (48 ≤ c.toNat ∧ c.toNat ≤ 57) || decide (c = '_')

/-- UTF-8 bytes of one scalar value. -/
def charUtf8 (c : Char) : List Nat :=
  let n := c.toNat
  if n < 128 then [n]
  else if n < 2048 then [192 + n / 64, 128 + n % 64]
  else if n < 65536 then [224 + n / 4096, 128 + (n / 64) % 64, 128 + n % 64]
  else [240 + n / 262144, 128 + (n / 4096) % 64, 128 + (n / 64) % 64, 128 + n % 64]

/-- UTF-8 encoding of a string. -/
def utf8Bytes (s : String) : List Nat := s.data.flatMap charUtf8

/-- Uppercase hexadecimal digit. -/
def hexDigit (n : Nat) : Char := if n < 10 then Char.ofNat (48 + n) else Char.ofNat (55 + n)

/-- Characters `encodeURIComponent` leaves unescaped:
`A-Z a-z 0-9 - _ . ! ~ * ' ( )`. -/
def isUnescapedURI (c : Char) : Bool :=
  decide (97 ≤ c.toNat ∧ c.toNat ≤ 122) || decide (65 ≤ c.toNat ∧ c.toNat ≤ 90) ||
  decide (48 ≤ c.toNat ∧ c.toNat ≤ 57) ||
  decide (c = '-') || decide (c = '_') || decide (c = '.') || decide (c = '!') ||
  decide (c = '~') || decide (c = '*') || decide (c.toNat = 39) ||
  decide (c = '(') || decide (c = ')')

/-- JS `encodeURIComponent`: percent-encode the UTF-8 bytes of every character
outside the unescaped set, with uppercase hex digits. -/
def encodeURIComponent (s : String) : String :=
  ⟨s.data.flatMap fun c =>
    if isUnescapedURI c then [c]
    else (charUtf8 c).flatMap fun b => ['%', hexDigit (b / 16), hexDigit (b % 16)]⟩

/-- The standard base64 alphabet. -/
def base64Alphabet : List Char :=
  "ABCDEFGHIJKLMNOPQRSTUVWXYZabcdefghijklmnopqrstuvwxyz0123456789+/".data

/-- One base64 digit. -/
def b64c (n : Nat) : Char := base64Alphabet.getD n 'A'

/-- Base64 of a byte list, with `=` padding (`Buffer.toString("base64")`). -/
def base64Chunks : List Nat → List Char
  | [] => []
  | [b1] => [b64c (b1 / 4), b64c (b1 % 4 * 16), '=', '=']
  | [b1, b2] => [b64c (b1 / 4), b64c (b1 % 4 * 16 + b2 / 16), b64c (b2 % 16 * 4), '=']
  | b1 :: b2 :: b3 :: rest =>
    b64c (b1 / 4) :: b64c (b1 % 4 * 16 + b2 / 16) ::
    b64c (b2 % 16 * 4 + b3 / 64) :: b64c (b3 % 64) :: base64Chunks rest

/-- `Buffer.from(s).toString("base64")`. -/
def jsBase64 (s : String) : String := ⟨base64Chunks (utf8Bytes s)⟩

/-- Loosely-typed JS values flowing through `parameters`/`body`
(§9 of the spec: best-effort dynamic typing).  `undef` is `undefined`. -/
inductive JSValue where
  | str (s : String)
  | int (n : Int)
  | bool (b : Bool)
  | undef
deriving DecidableEq, Repr

/-- JS `String(value)`. -/
def jsToString : JSValue → String
  | .str s => s
  | .int n => toString n
  | .bool true => "true"
  | .bool false => "false"
  | .undef => "undefined"

/-- JS truthiness of a value. -/
def jsTruthyVal : JSValue → Bool
  | .str s => if s = "" then false else true
  | .int n => if n = 0 then false else true
  | .bool b => b
  | .undef => false

/-- String-keyed record with string values (JS `Record<string, string>`). -/
abbrev StrRecord := List (String × String)

/-- String-keyed record with loosely-typed values. -/
abbrev ValRecord := List (String × JSValue)

/-- Keys of a record, in insertion order. -/
def recKeys (r : List (String × α)) : List String := r.map Prod.fst

/-- JS object property assignment `r[k] = v`: update the existing binding in
place, or append a new one. -/
def recSet : List (String × α) → String → α → List (String × α)
  | [], k, v => [(k, v)]
  | kv :: rest, k, v => if kv.1 = k then (k, v) :: rest else kv :: recSet rest k v

/-- JS object property read `r[k]`. -/
def recGet? (r : List (String × α)) (k : String) : Option α :=
  (r.find? fun kv => decide (kv.1 = k)).map Prod.snd

/-- The `type` discriminant of an `AuthConfig`, including the `"none"` value
accepted by the tool input schemas. -/
inductive AuthType where
  | noAuth | basic | bearer | apiKey | oauth2
deriving DecidableEq, Repr

/-- `apiKeyIn`. -/
inductive ApiKeyLoc where
  | header | query
deriving DecidableEq, Repr

/-- `AuthConfig` from src/types.ts (optional fields are JS-optional). -/
structure AuthConfig where
  type : AuthType
  username : Option String := none
  password : Option String := none
  token : Option String := none
  apiKey : Option String := none
  apiKeyName : Option String := none
  apiKeyIn : Option ApiKeyLoc := none
deriving DecidableEq, Repr

/-- The `switch (authConfig.type)` body shared verbatim by
`SimpleSwaggerMcpServer.getAuthHeaders` and
`SimplePostmanMcpServer.getAuthHeaders` (the former nests the `apiKeyIn`
test inside the field test; both fall through to `{}` when it fails). -/
def authHeadersFor (c : AuthConfig) : StrRecord :=
  match c.type with
  | .basic =>
    if jsTruthy c.username && jsTruthy c.password then
      [("Authorization", "Basic " ++ jsBase64 (c.username.getD "" ++ ":" ++ c.password.getD ""))]
    else []
  | .bearer =>
    if jsTruthy c.token then [("Authorization", "Bearer " ++ c.token.getD "")] else []
  | .apiKey =>
    if jsTruthy c.apiKey && jsTruthy c.apiKeyName then
      if c.apiKeyIn = some ApiKeyLoc.header then [(c.apiKeyName.getD "", c.apiKey.getD "")]
      else []
    else []
  | .oauth2 =>
    if jsTruthy c.token then [("Authorization", "Bearer " ++ c.token.getD "")] else []
  | .noAuth => []

/-- `getAuthHeaders`: `const authConfig = auth || this.defaultAuth;
if (!authConfig) return {};` then the scheme switch. -/
def getAuthHeaders (auth defaultAuth : Option AuthConfig) : StrRecord :=
  match (match auth with | some a => some a | none => defaultAuth) with
  | none => []
  | some c => authHeadersFor c

/-- Body of `getAuthQueryParams` after the default fallback. -/
def authQueryParamsFor (c : AuthConfig) : StrRecord :=
  if c.type = AuthType.apiKey ∧ jsTruthy c.apiKey ∧ jsTruthy c.apiKeyName ∧
      c.apiKeyIn = some ApiKeyLoc.query then
    [(c.apiKeyName.getD "", c.apiKey.getD "")]
  else []

/-- `getAuthQueryParams` (identical in both server classes). -/
def getAuthQueryParams (auth defaultAuth : Option AuthConfig) : StrRecord :=
  match (match auth with | some a => some a | none => defaultAuth) with
  | none => []
  | some c => authQueryParamsFor c

/-- JS `array.join(" ")`. -/
def joinSpace : List String → String
  | [] => ""
  | [s] => s
  | s :: rest => s ++ " " ++ joinSpace rest

/-- The `for … \x7b … push(…); if (acc.length >= limit) break; \x7d` collection
pattern used by the list/search tools: scan in order, keep the elements `f`
accepts, and stop as soon as the accumulated length reaches `limit` (the length
test runs after each push, so even `limit = 0` yields one element). -/
def takeCollect (f : α → Option β) : Nat → List α → List β
  | _, [] => []
  | limit, x :: xs =>
    match f x with
    | none => takeCollect f limit xs
    | some b => if limit ≤ 1 then [b] else b :: takeCollect f (limit - 1) xs

namespace OpenAPI

/-- One OpenAPI operation object, restricted to the fields the server reads.
Parameter/requestBody/response payload shaping is elided: no claim references
those output fields. -/
structure Operation where
  operationId : Option String := none
  summary : Option String := none
  description : Option String := none
  tags : List String := []
  deprecated : Bool := false
  security : Option (List (List String)) := none
deriving DecidableEq, Repr

/-- The verb-keyed entries under one path template (only present operations are
modelled; the source skips absent ones with `!operation`). -/
abbrev PathItem := List (String × Operation)

/-- `this.swaggerSpec.paths` as an insertion-ordered record. -/
abbrev Paths := List (String × PathItem)

/-- ``op.operationId || `${method}-${path}` `` — the endpoint id used by every
tool (JS `||`: an empty-string `operationId` also falls back). -/
def opEffectiveId (method path : String) (op : Operation) : String :=
  match op.operationId with
  | some s => if s = "" then method ++ "-" ++ path else s
  | none => method ++ "-" ++ path

/-- The nested `for (… of Object.entries(paths)) for (… of Object.entries(pathItem))`
scan, skipping the `$ref` key, flattened in encounter order. -/
def allOperations (paths : Paths) : List (String × String × Operation) :=
  paths.flatMap fun pe => pe.2.filterMap fun me =>
    if me.1 = "$ref" then none else some (pe.1, me.1, me.2)

/-- One element of the `list_endpoints` output array. -/
structure EndpointSummary where
  operationId : String
  method : String
  path : String
  summary : String
  description : String
  tags : List String
  deprecated : Bool
deriving DecidableEq, Repr

/-- `list_endpoints` input. -/
structure ListInput where
  method : Option String := none
  tag : Option String := none
  limit : Nat := 50

/-- The two `continue` filters of `list_endpoints` (JS truthiness: an
empty-string filter is skipped). -/
def passesFilters (inp : ListInput) (m : String) (op : Operation) : Bool :=
  (if jsTruthy inp.method then decide (jsToLower m = jsToLower (inp.method.getD "")) else true) &&
  (if jsTruthy inp.tag then op.tags.contains (inp.tag.getD "") else true)

/-- The record pushed by `list_endpoints`. -/
def summarize (p m : String) (op : Operation) : EndpointSummary :=
  { operationId := opEffectiveId m p op
    method := jsToUpper m
    path := p
    summary := op.summary.getD ""
    description := op.description.getD ""
    tags := op.tags
    deprecated := op.deprecated }

/-- The `list_endpoints` tool body (scan with early break at the limit). -/
def listEndpoints (paths : Paths) (inp : ListInput) : List EndpointSummary :=
  takeCollect
    (fun t => if passesFilters inp t.2.1 t.2.2 then some (summarize t.1 t.2.1 t.2.2) else none)
    inp.limit (allOperations paths)

/-- One element of the `search_endpoints` output array. -/
structure SearchEndpointsResult where
  operationId : String
  method : String
  path : String
  summary : String
  description : String
  tags : List String
deriving DecidableEq, Repr

/-- `[path, summary, description, ...tags, operationId].join(" ").toLowerCase()`. -/
def endpointSearchText (p m : String) (op : Operation) : String :=
  jsToLower (joinSpace ([p, op.summary.getD "", op.description.getD ""] ++ op.tags ++
    [opEffectiveId m p op]))

/-- The record pushed by `search_endpoints`. -/
def mkEndpointResult (p m : String) (op : Operation) : SearchEndpointsResult :=
  { operationId := opEffectiveId m p op
    method := jsToUpper m
    path := p
    summary := op.summary.getD ""
    description := op.description.getD ""
    tags := op.tags }

/-- The `search_endpoints` tool body: lowercase the query, collect substring
matches in scan order, breaking out of both loops at the limit.  No relevance
scoring or sorting exists on this path. -/
def searchEndpoints (paths : Paths) (query : String) (limit : Nat) : List SearchEndpointsResult :=
  let q := jsToLower query
  takeCollect
    (fun t => if jsIncludes (endpointSearchText t.1 t.2.1 t.2.2) q then
        some (mkEndpointResult t.1 t.2.1 t.2.2)
      else none)
    limit (allOperations paths)

/-- The identifying inputs shared by `get_endpoint_details` and `make_api_call`. -/
structure LookupInput where
  operationId : Option String := none
  path : Option String := none
  method : Option String := none

/-- The match test of the lookup loops:
`input.operationId === operationId || (input.path === path && input.method?.toLowerCase() === method.toLowerCase())`. -/
def matchesInput (inp : LookupInput) (p m : String) (op : Operation) : Bool :=
  decide (inp.operationId = some (opEffectiveId m p op)) ||
  (decide (inp.path = some p) && decide (inp.method.map jsToLower = some (jsToLower m)))

/-- The shared find-the-operation loop (first match wins, then `break`). -/
def findOperation (paths : Paths) (inp : LookupInput) : Option (String × String × Operation) :=
  (allOperations paths).find? fun t => matchesInput inp t.1 t.2.1 t.2.2

/-- The scalar part of the `get_endpoint_details` output record. -/
structure EndpointDetails where
  operationId : String
  method : String
  path : String
  summary : String
  description : String
  tags : List String
  deprecated : Bool
deriving DecidableEq, Repr

/-- Result of `get_endpoint_details`: either the details record or the
user-facing guidance text (returned, never thrown). -/
inductive DetailsResult where
  | notFound (message : String)
  | found (d : EndpointDetails)
deriving DecidableEq, Repr

/-- The `get_endpoint_details` tool body. -/
def getEndpointDetails (paths : Paths) (inp : LookupInput) : DetailsResult :=
  match findOperation paths inp with
  | none => .notFound "Endpoint not found. Use list_endpoints to see available endpoints."
  | some t =>
    .found { operationId := opEffectiveId t.2.1 t.1 t.2.2
             method := jsToUpper t.2.1
             path := t.1
             summary := t.2.2.summary.getD ""
             description := t.2.2.description.getD ""
             tags := t.2.2.tags
             deprecated := t.2.2.deprecated }

/-- `get_endpoint_details` as a state-passing handler: the method only reads
`this.swaggerSpec.paths` and never reassigns it, so the state component passes
through unchanged. -/
def getEndpointDetailsH (paths : Paths) (inp : LookupInput) : Paths × DetailsResult :=
  (paths, getEndpointDetails paths inp)

/-- `input.auth?.type !== "none" ? (input.auth as AuthConfig) : undefined`:
an absent auth argument and an explicit `type: "none"` both pass `undefined`
to the resolvers (which then fall back to the default). -/
def effectiveAuthArg (a : Option AuthConfig) : Option AuthConfig :=
  match a with
  | none => none
  | some c => if c.type = AuthType.noAuth then none else some c

/-- `make_api_call` input. -/
structure CallInput where
  operationId : Option String := none
  path : Option String := none
  method : Option String := none
  parameters : ValRecord := []
  body : Option JSValue := none
  auth : Option AuthConfig := none

/-- `s.slice(1, -1)`. -/
def jsSliceInner (s : String) : String := ⟨(s.data.drop 1).dropLast⟩

/-- The path-parameter name set: split the path template on `/` and keep the
inner text of every segment that starts with `\x7b` and ends with `\x7d`. -/
def pathParamNames (path : String) : List String :=
  (jsSplitSlash path).filterMap fun seg =>
    if jsStartsWith seg "\x7b" && jsEndsWith seg "\x7d" then some (jsSliceInner seg)
    else none

/-- The `Object.entries(params).forEach` substitution loop: each parameter whose
name is in the path set replaces the first occurrence of its `\x7bname\x7d`
token with its URL-encoded stringification. -/
def substPathParams (path : String) (params : ValRecord) (url : String) : String :=
  params.foldl
    (fun u kv =>
      if (pathParamNames path).contains kv.1 then
        jsReplaceFirst u ("\x7b" ++ kv.1 ++ "\x7d") (encodeURIComponent (jsToString kv.2))
      else u)
    url

/-- `Object.entries(params).filter(([key]) => !pathParams.has(key)).reduce(…)`:
the caller parameters that are not path parameters, in insertion order. -/
def swaggerQueryParams (path : String) (params : ValRecord) : ValRecord :=
  params.filter fun kv => !(pathParamNames path).contains kv.1

/-- `\x7b...queryParams, ...authQueryParams\x7d`: spread-merge with the auth
query parameters overriding on key clashes. -/
def mergeParams (q : ValRecord) (a : StrRecord) : ValRecord :=
  a.foldl (fun acc kv => recSet acc kv.1 (JSValue.str kv.2)) q

/-- The axios request configuration assembled by `make_api_call`. -/
structure ApiCallConfig where
  method : String
  url : String
  headers : StrRecord
  params : ValRecord
  data : Option JSValue
deriving DecidableEq, Repr

/-- Result of `make_api_call` up to the HTTP transport boundary (the axios
invocation itself is the out-of-scope collaborator). -/
inductive ApiCallResult where
  | notFound (message : String)
  | call (cfg : ApiCallConfig)
deriving DecidableEq, Repr

/-- The `make_api_call` tool body: resolve the operation, substitute path
parameters, split off query parameters, resolve auth, and assemble the
outbound request.  The found operation's `security` field is never read. -/
def makeApiCall (apiBaseUrl : String) (defaultAuth : Option AuthConfig)
    (paths : Paths) (inp : CallInput) : ApiCallResult :=
  match findOperation paths
      { operationId := inp.operationId, path := inp.path, method := inp.method } with
  | none => .notFound "Endpoint not found. Use list_endpoints to see available endpoints."
  | some t =>
    let targetPath := t.1
    let targetMethod := t.2.1
    let url := substPathParams targetPath inp.parameters (apiBaseUrl ++ targetPath)
    let headers := getAuthHeaders (effectiveAuthArg inp.auth) defaultAuth
    let authQP := getAuthQueryParams (effectiveAuthArg inp.auth) defaultAuth
    .call { method := targetMethod
            url := url
            headers := headers
            params := mergeParams (swaggerQueryParams targetPath inp.parameters) authQP
            data := inp.body }

end OpenAPI

namespace Postman

/-- One entry of `this.requests` as built by `parseAllRequests` (the
`request` object itself contributes its `method` and `url` here). -/
structure PRequest where
  id : String
  name : String
  method : String
  url : String
  description : String
  folder : String
deriving DecidableEq, Repr

/-- A Postman collection item: a leaf with a request, or a folder. -/
inductive PItem where
  | leaf (name method url description : String)
  | group (name : String) (items : List PItem)
deriving Repr

/-- `` `${folderPath}${item.name}`.replace(/[^a-zA-Z0-9_]/g, "_").toLowerCase() ``
applied to one string: non-word characters become `_`, then lowercase. -/
def slugify (s : String) : String :=
  ⟨s.data.map fun c => Char.toLower (if isWordChar c then c else '_')⟩

mutual

/-- The recursive `parseItem` closure of `parseAllRequests`. -/
def parseItem (folderPath : String) : PItem → List PRequest
  | .leaf name method url description =>
    [{ id := slugify (folderPath ++ name)
       name := name
       method := method
       url := url
       description := description
       folder := folderPath }]
  | .group name items =>
    parseItems (if folderPath = "" then name else folderPath ++ "/" ++ name) items

/-- `item.items.each(subItem => parseItem(subItem, newFolderPath))`. -/
def parseItems (folderPath : String) : List PItem → List PRequest
  | [] => []
  | it :: rest => parseItem folderPath it ++ parseItems folderPath rest

end

/-- `parseAllRequests`: depth-first traversal starting with an empty folder
path.  No collision disambiguation of any kind is applied to `id`. -/
def parseAllRequests (items : List PItem) : List PRequest := parseItems "" items

/-- `calculateRelevance`: split the query on single spaces (duplicates are kept)
and accumulate +1 per word found as a substring, +0.5 more when the text
contains the word surrounded by spaces, starts with it, or ends with it.
Scores are small multiples of 0.5, which IEEE doubles represent exactly, so
`ℚ` models the JS number arithmetic without loss. -/
def calculateRelevance (query text : String) : ℚ :=
  (jsSplitSpace query).foldl
    (fun score word =>
      if jsIncludes text word then
        let score := score + 1
        if jsIncludes text (" " ++ word ++ " ") || jsStartsWith text word ||
            jsEndsWith text word then score + 1/2
        else score
      else score)
    0

/-- `[name, description, url, folder, method].join(" ").toLowerCase()` —
the search blob of one request. -/
def requestSearchText (r : PRequest) : String :=
  jsToLower (joinSpace [r.name, r.description, r.url, r.folder, r.method])

/-- One element of the `search_requests` result array (before the final
output map strips `relevance`). -/
structure SearchRequestsResult where
  id : String
  name : String
  method : String
  url : String
  folder : String
  description : String
  relevance : ℚ
deriving DecidableEq, Repr

/-- `description.substring(0, 100) + (description.length > 100 ? "..." : "")`. -/
def truncDescription (s : String) : String :=
  ⟨s.data.take 100⟩ ++ (if 100 < s.data.length then "..." else "")

/-- The record pushed by `search_requests` for a matching request. -/
def mkRequestResult (q : String) (r : PRequest) : SearchRequestsResult :=
  { id := r.id
    name := r.name
    method := r.method
    url := r.url
    folder := r.folder
    description := truncDescription r.description
    relevance := calculateRelevance q (requestSearchText r) }

/-- Stable insertion into a descending-by-relevance list: a newly arriving
element goes after every already-placed element of equal or higher score. -/
def insertByRelevance (x : SearchRequestsResult) :
    List SearchRequestsResult → List SearchRequestsResult
  | [] => [x]
  | y :: ys => if y.relevance < x.relevance then x :: y :: ys else y :: insertByRelevance x ys

/-- `results.sort((a, b) => b.relevance - a.relevance)`: JS `Array.prototype.sort`
is stable, so it produces the unique stable descending order, which this
insertion sort also produces. -/
def sortByRelevance (l : List SearchRequestsResult) : List SearchRequestsResult :=
  l.foldl (fun acc x => insertByRelevance x acc) []

/-- The `search_requests` tool body: lowercase the query, collect matches in
scan order **breaking out of the loop once the limit is reached**, then sort
the collected (at most `limit`) results by relevance. -/
def searchRequests (reqs : List PRequest) (query : String) (limit : Nat) :
    List SearchRequestsResult :=
  let q := jsToLower query
  sortByRelevance
    (takeCollect
      (fun r => if jsIncludes (requestSearchText r) q then some (mkRequestResult q r) else none)
      limit reqs)

/-- `this.environment[variableName] || match`: a missing or empty-string
environment value keeps the original token text. -/
def envLookupOr (env : StrRecord) (w tok : String) : String :=
  match recGet? env w with
  | some v => if v = "" then tok else v
  | none => tok

/-- Longest run of `\w` characters at the head, plus the remainder. -/
def takeWordRun : List Char → List Char × List Char
  | [] => ([], [])
  | c :: cs =>
    if isWordChar c then
      let r := takeWordRun cs
      (c :: r.1, r.2)
    else ([], c :: cs)

theorem takeWordRun_length (l : List Char) :
    (takeWordRun l).1.length + (takeWordRun l).2.length = l.length := by
  induction l with
  | nil => simp [takeWordRun]
  | cons c cs ih =>
    by_cases h : isWordChar c = true
    · simp [takeWordRun, h]; omega
    · simp [takeWordRun, h]

theorem resolveVarsDec (c1 c2 : Char) (l : List Char) :
    ((takeWordRun l).2.drop 2).length < (c1 :: c2 :: l).length := by
  have h := takeWordRun_length l
  simp [List.length_drop]
  omega

/-- The global regex replace `text.replace(/\x7b{2\x7d(\w+)\x7b0\x7d/g, …)` scanner:
at each position try to match `\x7b\x7b`, a nonempty word run, `\x7d\x7d`; on success
emit the replacement (which is not rescanned) and continue after the token; on
failure advance one character, exactly like the regex engine's start-position
advance. -/
def resolveVarsL (env : StrRecord) (s : List Char) : List Char :=
  match s with
  | [] => []
  | c1 :: rest1 =>
    if c1 = '{' then
      match rest1 with
      | [] => [c1]
      | c2 :: rest2 =>
        if c2 = '{' then
          let w := (takeWordRun rest2).1
          let rest := (takeWordRun rest2).2
          if w ≠ [] ∧ rest.take 2 = ['}', '}'] then
            (envLookupOr env ⟨w⟩ ⟨'{' :: '{' :: w ++ ['}', '}']⟩).data ++
              resolveVarsL env (rest.drop 2)
          else c1 :: resolveVarsL env (c2 :: rest2)
        else c1 :: resolveVarsL env (c2 :: rest2)
    else c1 :: resolveVarsL env rest1
termination_by s.length
decreasing_by
  all_goals first
    | exact resolveVarsDec _ _ _
    | (simp; try omega)

/-- `resolveVariables` (the `if (!text) return text;` guard is the identity on
the empty string, which the scanner also returns unchanged). -/
def resolveVariables (env : StrRecord) (s : String) : String := ⟨resolveVarsL env s.data⟩

/-- The `Object.keys(parameters).forEach` substitution loop of
`executeRequest`: for each defined parameter, replace the first occurrence of
`:key`, then of `\x7b\x7bkey\x7d\x7d`, then of `\x7bkey\x7d`, each with the
URL-encoded stringification. -/
def substPathParamsP (params : ValRecord) (url : String) : String :=
  params.foldl
    (fun u kv =>
      if kv.2 = JSValue.undef then u
      else
        let enc := encodeURIComponent (jsToString kv.2)
        jsReplaceFirst
          (jsReplaceFirst (jsReplaceFirst u (":" ++ kv.1) enc)
            ("\x7b\x7b" ++ kv.1 ++ "\x7d\x7d") enc)
          ("\x7b" ++ kv.1 ++ "\x7d") enc)
    url

/-- The final URL of `executeRequest`: environment variables are resolved
first, then caller parameters are substituted. -/
def postmanFinalUrl (env : StrRecord) (params : ValRecord) (rawUrl : String) : String :=
  substPathParamsP params (resolveVariables env rawUrl)

/-- The query-parameter build of `executeRequest`: start from the auth query
parameters, then add every defined caller parameter whose `:key` and
`\x7b\x7bkey\x7d\x7d` tokens no longer occur in the (already substituted) URL. -/
def buildQueryParams (auth defaultAuth : Option AuthConfig) (params : ValRecord)
    (finalUrl : String) : ValRecord :=
  params.foldl
    (fun acc kv =>
      if kv.2 ≠ JSValue.undef ∧ ¬jsIncludes finalUrl (":" ++ kv.1) ∧
          ¬jsIncludes finalUrl ("\x7b\x7b" ++ kv.1 ++ "\x7d\x7d") then
        recSet acc kv.1 kv.2
      else acc)
    ((getAuthQueryParams auth defaultAuth).map fun kv => (kv.1, JSValue.str kv.2))

/-- The header build of `executeRequest`: auth headers, then parameters whose
lowercased key contains "header", then the default content type when a body is
present and no truthy Content-Type is set. -/
def buildHeadersP (auth defaultAuth : Option AuthConfig) (params : ValRecord)
    (body : Option JSValue) : ValRecord :=
  let base := (getAuthHeaders auth defaultAuth).map fun kv => (kv.1, JSValue.str kv.2)
  let withParams := params.foldl
    (fun acc kv =>
      if kv.2 ≠ JSValue.undef ∧ jsIncludes (jsToLower kv.1) "header" then recSet acc kv.1 kv.2
      else acc)
    base
  let bodyTruthy := match body with | some b => jsTruthyVal b | none => false
  let ctTruthy := match recGet? withParams "Content-Type" with
    | some v => jsTruthyVal v
    | none => false
  if bodyTruthy && !ctTruthy then
    recSet withParams "Content-Type" (JSValue.str "application/json")
  else withParams

/-- Minimal JSON string escaping (quotes and backslashes; the inputs the
claims evaluate contain no control characters). -/
def jsonEscape (s : String) : String :=
  ⟨s.data.flatMap fun c =>
    if c = '"' then ['\\', '"'] else if c = '\\' then ['\\', '\\'] else [c]⟩

/-- `JSON.stringify` on the modelled value fragment. -/
def jsonStringify : JSValue → String
  | .str s => "\"" ++ jsonEscape s ++ "\""
  | .int n => toString n
  | .bool true => "true"
  | .bool false => "false"
  | .undef => "undefined"

/-- `if (body) \x7b config.data = typeof body === "string" ? body : JSON.stringify(body) \x7d`. -/
def dataOf (body : Option JSValue) : Option String :=
  match body with
  | some b =>
    if jsTruthyVal b then some (match b with | .str s => s | v => jsonStringify v)
    else none
  | none => none

/-- The axios request configuration assembled by `executeRequest`. -/
structure PostmanCallConfig where
  method : String
  url : String
  headers : ValRecord
  params : ValRecord
  data : Option String
deriving DecidableEq, Repr

/-- `executeRequest` up to the HTTP transport boundary. -/
def executeRequest (env : StrRecord) (defaultAuth : Option AuthConfig) (r : PRequest)
    (params : ValRecord) (body : Option JSValue) (auth : Option AuthConfig) :
    PostmanCallConfig :=
  let url := postmanFinalUrl env params r.url
  { method := r.method
    url := url
    headers := buildHeadersP auth defaultAuth params body
    params := buildQueryParams auth defaultAuth params url
    data := dataOf body }

/-- The identifying inputs of `get_request_details`/`make_request`. -/
structure RequestLookupInput where
  requestId : Option String := none
  name : Option String := none

/-- The find-the-request loop:
`req.id === input.requestId || req.name.toLowerCase() === input.name?.toLowerCase()`,
first match wins. -/
def findRequest (reqs : List PRequest) (inp : RequestLookupInput) : Option PRequest :=
  reqs.find? fun r =>
    decide (some r.id = inp.requestId) ||
    decide (inp.name.map jsToLower = some (jsToLower r.name))

/-- `make_request` input. -/
structure MakeRequestInput where
  requestId : Option String := none
  name : Option String := none
  parameters : ValRecord := []
  body : Option JSValue := none
  auth : Option AuthConfig := none

/-- Result of `make_request` up to the HTTP transport boundary. -/
inductive RequestCallResult where
  | notFound (message : String)
  | call (cfg : PostmanCallConfig)
deriving DecidableEq, Repr

/-- The `make_request` tool body. -/
def makeRequest (env : StrRecord) (defaultAuth : Option AuthConfig)
    (reqs : List PRequest) (inp : MakeRequestInput) : RequestCallResult :=
  match findRequest reqs { requestId := inp.requestId, name := inp.name } with
  | none => .notFound "Request not found. Use list_requests to see available requests."
  | some r => .call (executeRequest env defaultAuth r inp.parameters inp.body inp.auth)

/-- `make_request` as a state-passing handler: the handler only reads
`this.requests` and never reassigns it. -/
def makeRequestH (env : StrRecord) (defaultAuth : Option AuthConfig)
    (reqs : List PRequest) (inp : MakeRequestInput) : List PRequest × RequestCallResult :=
  (reqs, makeRequest env defaultAuth reqs inp)

end Postman

namespace SpecModel

/-- For refinement comparison, following the spec's words: the distinct
elements of a list in first-occurrence order ("per distinct query word"). -/
def distinctList (l : List String) : List String :=
  l.foldl (fun acc w => if acc.contains w then acc else acc ++ [w]) []

/-- For refinement comparison, following the spec's words: `w` occurs in
`text` as a whole word, "bounded by word boundaries or string start/end"
(a word boundary being a non-`\w` character). -/
def wholeWordMatch (w text : String) : Bool :=
  (List.range (text.data.length + 1)).any fun i =>
    leadsWith w.data (text.data.drop i) &&
    (decide (i = 0) ||
      !(match text.data.get? (i - 1) with | some c => isWordChar c | none => false)) &&
    (match text.data.drop (i + w.data.length) with | [] => true | c :: _ => !isWordChar c)

/-- For refinement comparison, following the spec's words: "+1 per distinct
query word found anywhere in the blob, +0.5 bonus per word that also appears
as a whole-word match (bounded by word boundaries or string start/end)". -/
def specRelevance (query text : String) : ℚ :=
  (distinctList (jsSplitSpace query)).foldl
    (fun score w =>
      if jsIncludes text w then
        score + 1 + (if wholeWordMatch w text then 1/2 else 0)
      else score)
    0

/-- All matching requests of a full scan, in encounter order (no early break). -/
def postmanMatches (reqs : List Postman.PRequest) (query : String) :
    List Postman.SearchRequestsResult :=
  let q := jsToLower query
  reqs.filterMap fun r =>
    if jsIncludes (Postman.requestSearchText r) q then some (Postman.mkRequestResult q r)
    else none

/-- For refinement comparison, following the spec's words for the Postman
search path: collect **all** matching requests over the full scan, sort by
relevance descending (stable), and only then truncate to the limit. -/
def specSearchRequests (reqs : List Postman.PRequest) (query : String) (limit : Nat) :
    List Postman.SearchRequestsResult :=
  (Postman.sortByRelevance (postmanMatches reqs query)).take limit

/-- All matching OpenAPI operations of a full scan, in encounter order. -/
def openApiMatches (paths : OpenAPI.Paths) (query : String) :
    List OpenAPI.SearchEndpointsResult :=
  let q := jsToLower query
  (OpenAPI.allOperations paths).filterMap fun t =>
    if jsIncludes (OpenAPI.endpointSearchText t.1 t.2.1 t.2.2) q then
      some (OpenAPI.mkEndpointResult t.1 t.2.1 t.2.2)
    else none

end SpecModel

namespace Postman

/-- Analysis helper: the contribution of one query word to `calculateRelevance`
(+1 when the word occurs as a substring, +0.5 more when it is space-surrounded
or a prefix or suffix of the text). -/
def wordScore (t w : String) : ℚ :=
  if jsIncludes t w then
    1 + (if jsIncludes t (" " ++ w ++ " ") || jsStartsWith t w || jsEndsWith t w then 1/2
         else 0)
  else 0

end Postman

namespace Demo

/-- Request whose search blob is "get user    get". -/
def getUserReq : Postman.PRequest :=
  { id := "get_user", name := "get user", method := "GET", url := "", description := "",
    folder := "" }

/-- Request whose search blob is "list users and roles    get". -/
def listUsersReq : Postman.PRequest :=
  { id := "list_users_and_roles", name := "list users and roles", method := "GET", url := "",
    description := "", folder := "" }

/-- Request whose search blob is "update profile    get" (no "user" substring). -/
def updateProfileReq : Postman.PRequest :=
  { id := "update_profile", name := "update profile", method := "GET", url := "",
    description := "", folder := "" }

/-- A one-endpoint OpenAPI paths table: `GET /pets` with no `operationId`. -/
def petsPaths : OpenAPI.Paths := [("/pets", [("get", { operationId := none })])]

/-- `GET /pets` with no `operationId` and an **empty** declared security
requirement list. -/
def petsSecEmptyPaths : OpenAPI.Paths :=
  [("/pets", [("get", { operationId := none, security := some [] })])]

/-- Same endpoint with a non-empty declared security requirement list. -/
def petsSecBearerPaths : OpenAPI.Paths :=
  [("/pets", [("get", { operationId := none, security := some [["bearerAuth"]] })])]

/-- A one-endpoint OpenAPI paths table with a path parameter: `GET /users/\x7bid\x7d`. -/
def usersPaths : OpenAPI.Paths := [("/users/\x7bid\x7d", [("get", { operationId := none })])]

/-- A default bearer `AuthConfig` with token "t". -/
def bearerT : AuthConfig := { type := AuthType.bearer, token := some "t" }

/-- Two leaf items in the root folder whose names normalize to the same slug. -/
def collisionItems : List Postman.PItem :=
  [Postman.PItem.leaf "Get User" "GET" "u1" "", Postman.PItem.leaf "Get-User" "GET" "u2" ""]

/-- A Postman request with a `:id` path-parameter token in its URL. -/
def usersPostmanReq : Postman.PRequest :=
  { id := "get_user", name := "Get User", method := "GET", url := "/users/:id",
    description := "", folder := "" }

end Demo

theorem takeCollect_eq_take_filterMap (f : α → Option β) (lim : Nat) (h : 1 ≤ lim)
    (l : List α) : takeCollect f lim l = (l.filterMap f).take lim := by
  induction l generalizing lim with
  | nil => simp [takeCollect]
  | cons x xs ih =>
    cases hf : f x with
    | none => simp [takeCollect, hf, ih lim h]
    | some b =>
      by_cases hl : lim ≤ 1
      · have : lim = 1 := by omega
        subst this
        simp [takeCollect, hf]
      · have h1 : 1 ≤ lim - 1 := by omega
        have h2 : lim = (lim - 1) + 1 := by omega
        simp [takeCollect, hf, hl, ih (lim - 1) h1]
        rw [h2]
        simp

theorem recKeys_recSet_self (r : List (String × α)) (k : String) (v : α) :
    k ∈ recKeys (recSet r k v) := by
  induction r with
  | nil => simp [recSet, recKeys]
  | cons kv rest ih =>
    by_cases h : kv.1 = k
    · simp [recSet, h, recKeys]
    · simp [recSet, h, recKeys] at ih ⊢
      exact Or.inr ih

theorem recKeys_recSet_mono (r : List (String × α)) (k k' : String) (v : α)
    (h : k' ∈ recKeys r) : k' ∈ recKeys (recSet r k v) := by
  induction r with
  | nil => simp [recKeys] at h
  | cons kv rest ih =>
    by_cases hk : kv.1 = k
    · simp [recSet, hk, recKeys] at h ⊢
      rcases h with h | h
      · exact Or.inl (hk ▸ h)
      · exact Or.inr h
    · simp [recSet, hk, recKeys] at h ⊢
      rcases h with h | h
      · exact Or.inl h
      · exact Or.inr (by simpa [recKeys] using ih (by simpa [recKeys] using h))

/-- C1: for every OpenAPI operation without an explicit `operationId`, the
endpoint id — as reported by `list_endpoints`, `search_endpoints` and
`get_endpoint_details`, and as matched during lookups — is exactly the
HTTP-verb key, a hyphen, and the path template, byte for byte. -/
theorem C1_openapi_default_id :
    (∀ (m p : String) (op : OpenAPI.Operation), op.operationId = none →
      OpenAPI.opEffectiveId m p op = m ++ "-" ++ p) ∧
    (∀ (inp : OpenAPI.LookupInput) (p m : String) (op : OpenAPI.Operation),
      op.operationId = none →
      (OpenAPI.matchesInput inp p m op = true ↔
        (inp.operationId = some (m ++ "-" ++ p) ∨
          (inp.path = some p ∧ inp.method.map jsToLower = some (jsToLower m))))) ∧
    OpenAPI.listEndpoints Demo.petsPaths {} =
      [{ operationId := "get-/pets", method := "GET", path := "/pets", summary := "",
         description := "", tags := [], deprecated := false }] ∧
    OpenAPI.searchEndpoints Demo.petsPaths "pets" 20 =
      [{ operationId := "get-/pets", method := "GET", path := "/pets", summary := "",
         description := "", tags := [] }] ∧
    OpenAPI.getEndpointDetails Demo.petsPaths { operationId := some "get-/pets" } =
      .found { operationId := "get-/pets", method := "GET", path := "/pets", summary := "",
               description := "", tags := [], deprecated := false } := by
  refine ⟨?_, ?_, by decide, by decide, by decide⟩
  · intro m p op h
    simp [OpenAPI.opEffectiveId, h]
  · intro inp p m op h
    simp [OpenAPI.matchesInput, OpenAPI.opEffectiveId, h, Bool.or_eq_true, Bool.and_eq_true,
      decide_eq_true_iff]

/-- C1 witness: instantiation at `GET /pets` without an `operationId`. -/
theorem C1_openapi_default_id_witness :
    OpenAPI.opEffectiveId "get" "/pets" { operationId := none } = "get" ++ "-" ++ "/pets" :=
  C1_openapi_default_id.1 "get" "/pets" { operationId := none } rfl

/-- C8: a get-details or dispatch invocation whose id (and locator+method
fallback) matches nothing returns the "not found, use list" guidance text and
leaves the normalized endpoint state unchanged (the handlers are total
functions; no exception path exists). -/
theorem C8_lookup_failure :
    (∀ (paths : OpenAPI.Paths) (inp : OpenAPI.LookupInput),
      OpenAPI.findOperation paths inp = none →
      OpenAPI.getEndpointDetailsH paths inp =
        (paths, .notFound "Endpoint not found. Use list_endpoints to see available endpoints.")) ∧
    (∀ (base : String) (dA : Option AuthConfig) (paths : OpenAPI.Paths)
        (inp : OpenAPI.CallInput),
      OpenAPI.findOperation paths
          { operationId := inp.operationId, path := inp.path, method := inp.method } = none →
      OpenAPI.makeApiCall base dA paths inp =
        .notFound "Endpoint not found. Use list_endpoints to see available endpoints.") ∧
    (∀ (env : StrRecord) (dA : Option AuthConfig) (reqs : List Postman.PRequest)
        (inp : Postman.MakeRequestInput),
      Postman.findRequest reqs { requestId := inp.requestId, name := inp.name } = none →
      Postman.makeRequestH env dA reqs inp =
        (reqs, .notFound "Request not found. Use list_requests to see available requests.")) := by
  refine ⟨?_, ?_, ?_⟩
  · intro paths inp h
    simp [OpenAPI.getEndpointDetailsH, OpenAPI.getEndpointDetails, h]
  · intro base dA paths inp h
    simp [OpenAPI.makeApiCall, h]
  · intro env dA reqs inp h
    simp [Postman.makeRequestH, Postman.makeRequest, h]

/-- C8 witness: lookups against an empty endpoint table. -/
theorem C8_lookup_failure_witness :
    OpenAPI.getEndpointDetailsH [] { operationId := some "nope" } =
      ([], .notFound "Endpoint not found. Use list_endpoints to see available endpoints.") ∧
    Postman.makeRequestH [] none [] { requestId := some "nope" } =
      ([], .notFound "Request not found. Use list_requests to see available requests.") :=
  ⟨C8_lookup_failure.1 [] { operationId := some "nope" } (by decide),
   C8_lookup_failure.2.2 [] none [] { requestId := some "nope" } (by decide)⟩

/-- C9 counterexample: loading a collection with the two leaf items
"Get User" and "Get-User" in the same (root) folder yields the id list
["get_user", "get_user"] — the ids of one loaded spec are **not** pairwise
distinct, and no numeric suffix is applied. -/
theorem C9_unique_id_counterexample :
    (Postman.parseAllRequests Demo.collisionItems).map (fun r => r.id) =
      ["get_user", "get_user"] ∧
    ¬ ((Postman.parseAllRequests Demo.collisionItems).map (fun r => r.id)).Nodup :=
  ⟨by decide, by decide⟩

/-- C9 amended: a Postman endpoint id is the lowercased underscore-normalized
concatenation of folder path and item name with **no** collision
disambiguation: two leaf items of the same folder whose names normalize to the
same slug receive identical ids, and an id lookup deterministically returns the
first match in parse order (the later item is shadowed). -/
theorem C9_unique_id_amended :
    (∀ (fp n1 m1 u1 d1 n2 m2 u2 d2 : String),
      Postman.slugify (fp ++ n1) = Postman.slugify (fp ++ n2) →
      (Postman.parseItems fp
          [Postman.PItem.leaf n1 m1 u1 d1, Postman.PItem.leaf n2 m2 u2 d2]).map
        (fun r => r.id) = [Postman.slugify (fp ++ n1), Postman.slugify (fp ++ n1)]) ∧
    Postman.findRequest (Postman.parseAllRequests Demo.collisionItems)
        { requestId := some "get_user" } =
      some { id := "get_user", name := "Get User", method := "GET", url := "u1",
             description := "", folder := "" } := by
  refine ⟨?_, by decide⟩
  intro fp n1 m1 u1 d1 n2 m2 u2 d2 h
  simp [Postman.parseItems, Postman.parseItem, h]

/-- C9 witness: two distinct names with the same slug in the root folder. -/
theorem C9_unique_id_amended_witness :
    (Postman.parseItems ""
        [Postman.PItem.leaf "Get User" "GET" "u1" "", Postman.PItem.leaf "Get-User" "GET" "u2" ""]).map
      (fun r => r.id) = [Postman.slugify ("" ++ "Get User"), Postman.slugify ("" ++ "Get User")] :=
  C9_unique_id_amended.1 "" "Get User" "GET" "u1" "" "Get-User" "GET" "u2" "" (by decide)

/-- C4: the auth resolvers prefer an explicit per-call config over the default,
yield empty outputs when neither is present, map every scheme to exactly the
documented header/query output, and silently yield empty output on missing
required fields. -/
theorem C4_auth_resolution :
    (∀ (a : AuthConfig) (d d' : Option AuthConfig),
      getAuthHeaders (some a) d = authHeadersFor a ∧
      getAuthQueryParams (some a) d = authQueryParamsFor a ∧
      getAuthHeaders (some a) d = getAuthHeaders (some a) d' ∧
      getAuthQueryParams (some a) d = getAuthQueryParams (some a) d') ∧
    (getAuthHeaders none none = [] ∧ getAuthQueryParams none none = []) ∧
    (∀ (c : AuthConfig) (u p : String), c.type = AuthType.basic → c.username = some u →
      c.password = some p → u ≠ "" → p ≠ "" →
      authHeadersFor c = [("Authorization", "Basic " ++ jsBase64 (u ++ ":" ++ p))] ∧
      authQueryParamsFor c = []) ∧
    (∀ (c : AuthConfig) (t : String), (c.type = AuthType.bearer ∨ c.type = AuthType.oauth2) →
      c.token = some t → t ≠ "" →
      authHeadersFor c = [("Authorization", "Bearer " ++ t)] ∧ authQueryParamsFor c = []) ∧
    (∀ (c : AuthConfig) (k n : String), c.type = AuthType.apiKey → c.apiKey = some k →
      c.apiKeyName = some n → k ≠ "" → n ≠ "" → c.apiKeyIn = some ApiKeyLoc.header →
      authHeadersFor c = [(n, k)] ∧ authQueryParamsFor c = []) ∧
    (∀ (c : AuthConfig) (k n : String), c.type = AuthType.apiKey → c.apiKey = some k →
      c.apiKeyName = some n → k ≠ "" → n ≠ "" → c.apiKeyIn = some ApiKeyLoc.query →
      authHeadersFor c = [] ∧ authQueryParamsFor c = [(n, k)]) ∧
    (∀ (c : AuthConfig),
      (c.type = AuthType.basic → ¬(jsTruthy c.username = true ∧ jsTruthy c.password = true) →
        authHeadersFor c = [] ∧ authQueryParamsFor c = []) ∧
      ((c.type = AuthType.bearer ∨ c.type = AuthType.oauth2) → jsTruthy c.token = false →
        authHeadersFor c = [] ∧ authQueryParamsFor c = []) ∧
      (c.type = AuthType.apiKey → ¬(jsTruthy c.apiKey = true ∧ jsTruthy c.apiKeyName = true) →
        authHeadersFor c = [] ∧ authQueryParamsFor c = []) ∧
      (c.type = AuthType.apiKey → c.apiKeyIn = none →
        authHeadersFor c = [] ∧ authQueryParamsFor c = [])) := by
  refine ⟨fun a d d' => ⟨rfl, rfl, rfl, rfl⟩, ⟨rfl, rfl⟩, ?_, ?_, ?_, ?_, ?_⟩
  · intro c u p ht hu hp hune hpne
    constructor
    · simp [authHeadersFor, ht, hu, hp, jsTruthy, hune, hpne]
    · simp [authQueryParamsFor, ht]
  · intro c t ht htok htne
    rcases ht with h | h <;>
      exact ⟨by simp [authHeadersFor, h, htok, jsTruthy, htne],
             by simp [authQueryParamsFor, h]⟩
  · intro c k n ht hk hn hkne hnne hin
    constructor
    · simp [authHeadersFor, ht, hk, hn, hin, jsTruthy, hkne, hnne]
    · simp [authQueryParamsFor, ht, hin]
  · intro c k n ht hk hn hkne hnne hin
    constructor
    · simp [authHeadersFor, ht, hk, hn, hin, jsTruthy, hkne, hnne]
    · simp [authQueryParamsFor, ht, hk, hn, hin, jsTruthy, hkne, hnne]
  · intro c
    refine ⟨?_, ?_, ?_, ?_⟩
    · intro ht h
      refine ⟨?_, by simp [authQueryParamsFor, ht]⟩
      simp only [authHeadersFor, ht]
      rw [if_neg]
      simpa [Bool.and_eq_true] using h
    · intro ht htok
      rcases ht with h | h <;> simp [authHeadersFor, authQueryParamsFor, h, htok]
    · intro ht h
      constructor
      · simp only [authHeadersFor, ht]
        rw [if_neg]
        simpa [Bool.and_eq_true] using h
      · simp only [authQueryParamsFor]
        rw [if_neg]
        rintro ⟨-, hA, hB, -⟩
        exact h ⟨hA, hB⟩
    · intro ht hin
      constructor
      · simp [authHeadersFor, ht, hin]
      · simp [authQueryParamsFor, hin]

/-- C4 witness: the documented apiKey-in-header example
`\x7btype: apiKey, apiKey: "k", apiKeyName: "X", apiKeyIn: header\x7d`. -/
theorem C4_auth_resolution_witness :
    authHeadersFor
        { type := AuthType.apiKey, apiKey := some "k", apiKeyName := some "X",
          apiKeyIn := some ApiKeyLoc.header } = [("X", "k")] ∧
    authQueryParamsFor
        { type := AuthType.apiKey, apiKey := some "k", apiKeyName := some "X",
          apiKeyIn := some ApiKeyLoc.header } = [] :=
  C4_auth_resolution.2.2.2.2.1
    { type := AuthType.apiKey, apiKey := some "k", apiKeyName := some "X",
      apiKeyIn := some ApiKeyLoc.header }
    "k" "X" rfl rfl rfl (by decide) (by decide) rfl

/-- C5 counterexample: dispatching to `GET /pets`, whose declared security
requirement list is empty, with a configured default bearer token, still
injects `Authorization: Bearer t` — refuting the claim that unauthenticated
endpoints never receive injected credentials. -/
theorem C5_security_counterexample :
    OpenAPI.makeApiCall "https://api.test" (some Demo.bearerT) Demo.petsSecEmptyPaths
        { operationId := some "get-/pets" } =
      .call { method := "get", url := "https://api.test/pets",
              headers := [("Authorization", "Bearer t")], params := [], data := none } ∧
    [("Authorization", "Bearer t")] ≠ ([] : StrRecord) :=
  ⟨by decide, by decide⟩

/-- C5 amended: `make_api_call` never consults the endpoint's declared
security requirements — the injected headers are always exactly
`getAuthHeaders(effective per-call auth, default)`, and two endpoints
differing only in their declared security lists produce identical dispatches;
hence an endpoint with an empty security list still receives the default
credentials. -/
theorem C5_security_amended :
    (∀ (base : String) (dA : Option AuthConfig) (paths : OpenAPI.Paths)
        (inp : OpenAPI.CallInput) (cfg : OpenAPI.ApiCallConfig),
      OpenAPI.makeApiCall base dA paths inp = .call cfg →
      cfg.headers = getAuthHeaders (OpenAPI.effectiveAuthArg inp.auth) dA) ∧
    OpenAPI.makeApiCall "https://api.test" (some Demo.bearerT) Demo.petsSecEmptyPaths
        { operationId := some "get-/pets" } =
      OpenAPI.makeApiCall "https://api.test" (some Demo.bearerT) Demo.petsSecBearerPaths
        { operationId := some "get-/pets" } := by
  refine ⟨?_, by decide⟩
  intro base dA paths inp cfg h
  rw [OpenAPI.makeApiCall] at h
  cases hf : OpenAPI.findOperation paths
      { operationId := inp.operationId, path := inp.path, method := inp.method } with
  | none => rw [hf] at h; exact absurd h (by simp)
  | some t =>
    rw [hf] at h
    injection h with h2
    rw [← h2]

/-- C5 witness: the amended headers formula at the empty-security demo
endpoint. -/
theorem C5_security_amended_witness :
    ({ method := "get", url := "https://api.test/pets",
       headers := [("Authorization", "Bearer t")], params := [],
       data := none } : OpenAPI.ApiCallConfig).headers =
      getAuthHeaders (OpenAPI.effectiveAuthArg none) (some Demo.bearerT) :=
  C5_security_amended.1 "https://api.test" (some Demo.bearerT) Demo.petsSecEmptyPaths
    { operationId := some "get-/pets" } _ (by decide)

theorem swaggerQueryParams_mem (path : String) (params : ValRecord) (k : String) (v : JSValue) :
    (k, v) ∈ OpenAPI.swaggerQueryParams path params ↔
      (k, v) ∈ params ∧ k ∉ OpenAPI.pathParamNames path := by
  simp [OpenAPI.swaggerQueryParams, List.mem_filter]

/-- C6: a caller parameter named by a `\x7bname\x7d` path segment is substituted
(URL-encoded) into the URL, and exactly the remaining caller parameters become
query parameters; dispatching to `/users/\x7bid\x7d` with
`\x7bid: "42", verbose: true\x7d` yields `…/users/42` with query
`verbose=true` and no `id` key. -/
theorem C6_path_substitution :
    (∀ (path : String) (params : ValRecord) (k : String) (v : JSValue),
      ((k, v) ∈ OpenAPI.swaggerQueryParams path params ↔
        (k, v) ∈ params ∧ k ∉ OpenAPI.pathParamNames path)) ∧
    (∀ (path : String) (params : ValRecord) (k : String),
      k ∈ OpenAPI.pathParamNames path →
      ∀ v, (k, v) ∉ OpenAPI.swaggerQueryParams path params) ∧
    OpenAPI.makeApiCall "https://api.test" none Demo.usersPaths
        { operationId := some "get-/users/\x7bid\x7d",
          parameters := [("id", JSValue.str "42"), ("verbose", JSValue.bool true)] } =
      .call { method := "get", url := "https://api.test/users/42", headers := [],
              params := [("verbose", JSValue.bool true)], data := none } := by
  refine ⟨swaggerQueryParams_mem, ?_, by decide⟩
  intro path params k hk v hmem
  exact ((swaggerQueryParams_mem path params k v).mp hmem).2 hk

/-- C6 witness: the `/users/\x7bid\x7d` example instance of the general parts. -/
theorem C6_path_substitution_witness :
    (("verbose", JSValue.bool true) ∈
        OpenAPI.swaggerQueryParams "/users/\x7bid\x7d"
          [("id", JSValue.str "42"), ("verbose", JSValue.bool true)] ↔
      ("verbose", JSValue.bool true) ∈
          ([("id", JSValue.str "42"), ("verbose", JSValue.bool true)] : ValRecord) ∧
        "verbose" ∉ OpenAPI.pathParamNames "/users/\x7bid\x7d") ∧
    ("id", JSValue.str "42") ∉
      OpenAPI.swaggerQueryParams "/users/\x7bid\x7d"
        [("id", JSValue.str "42"), ("verbose", JSValue.bool true)] :=
  ⟨C6_path_substitution.1 "/users/\x7bid\x7d"
      [("id", JSValue.str "42"), ("verbose", JSValue.bool true)] "verbose" (JSValue.bool true),
   C6_path_substitution.2.1 "/users/\x7bid\x7d"
      [("id", JSValue.str "42"), ("verbose", JSValue.bool true)] "id" (by decide)
      (JSValue.str "42")⟩

theorem buildQueryParams_key_mem (url k : String) (v : JSValue)
    (hv : v ≠ JSValue.undef)
    (h1 : jsIncludes url (":" ++ k) = false)
    (h2 : jsIncludes url ("\x7b\x7b" ++ k ++ "\x7d\x7d") = false) :
    ∀ (params : ValRecord) (acc : ValRecord), ((k, v) ∈ params ∨ k ∈ recKeys acc) →
      k ∈ recKeys (params.foldl
        (fun acc kv =>
          if kv.2 ≠ JSValue.undef ∧ ¬jsIncludes url (":" ++ kv.1) ∧
              ¬jsIncludes url ("\x7b\x7b" ++ kv.1 ++ "\x7d\x7d") then
            recSet acc kv.1 kv.2
          else acc) acc) := by
  intro params
  induction params with
  | nil =>
    intro acc h
    rcases h with h | h
    · simp at h
    · simpa using h
  | cons kv rest ih =>
    intro acc h
    rw [List.foldl_cons]
    rcases h with h | h
    · rcases List.mem_cons.mp h with heq | hrest
      · apply ih
        right
        rw [← heq]
        rw [if_pos ⟨hv, by simp [h1], by simp [h2]⟩]
        exact recKeys_recSet_self acc k v
      · exact ih _ (Or.inl hrest)
    · apply ih
      right
      by_cases hc : kv.2 ≠ JSValue.undef ∧ ¬jsIncludes url (":" ++ kv.1) ∧
          ¬jsIncludes url ("\x7b\x7b" ++ kv.1 ++ "\x7d\x7d")
      · rw [if_pos hc]
        exact recKeys_recSet_mono acc kv.1 k kv.2 h
      · rw [if_neg hc]
        exact h

/-- C10: a defined caller parameter is added to the Postman query parameters
whenever the already-substituted URL no longer contains its `:name` or
`\x7b\x7bname\x7d\x7d` token; consequently a parameter substituted into the URL
path is also sent as a query parameter of the same request, as in the
`/users/:id` example. -/
theorem C10_query_param_addition :
    (∀ (auth dA : Option AuthConfig) (params : ValRecord) (url k : String) (v : JSValue),
      (k, v) ∈ params → v ≠ JSValue.undef →
      jsIncludes url (":" ++ k) = false →
      jsIncludes url ("\x7b\x7b" ++ k ++ "\x7d\x7d") = false →
      k ∈ recKeys (Postman.buildQueryParams auth dA params url)) ∧
    Postman.executeRequest [] none Demo.usersPostmanReq [("id", JSValue.str "7")] none none =
      { method := "GET", url := "/users/7", headers := [], params := [("id", JSValue.str "7")],
        data := none } := by
  constructor
  · intro auth dA params url k v hm hv h1 h2
    exact buildQueryParams_key_mem url k v hv h1 h2 params _ (Or.inl hm)
  · have hres : Postman.resolveVariables [] "/users/:id" = "/users/:id" := by
      simp [Postman.resolveVariables, Postman.resolveVarsL]
    simp only [Postman.executeRequest, Postman.postmanFinalUrl, Demo.usersPostmanReq, hres]
    decide

/-- C10 witness: the `/users/:id` instance of the general membership part. -/
theorem C10_query_param_addition_witness :
    "id" ∈ recKeys (Postman.buildQueryParams none none [("id", JSValue.str "7")] "/users/7") :=
  C10_query_param_addition.1 none none [("id", JSValue.str "7")] "/users/7" "id"
    (JSValue.str "7") (by decide) (by decide) (by decide) (by decide)

theorem relevance_getUser_eval :
    Postman.calculateRelevance "user" (Postman.requestSearchText Demo.getUserReq) = 3/2 := by
  rw [show Postman.requestSearchText Demo.getUserReq = "get user    get" from by decide]
  rw [Postman.calculateRelevance, show jsSplitSpace "user" = ["user"] from by decide]
  simp only [List.foldl,
    show jsIncludes "get user    get" "user" = true from by decide,
    show (jsIncludes "get user    get" (" " ++ "user" ++ " ") ||
      jsStartsWith "get user    get" "user" || jsEndsWith "get user    get" "user") = true
      from by decide, if_true]
  norm_num

theorem relevance_listUsers_eval :
    Postman.calculateRelevance "user" (Postman.requestSearchText Demo.listUsersReq) = 1 := by
  rw [show Postman.requestSearchText Demo.listUsersReq = "list users and roles    get"
    from by decide]
  rw [Postman.calculateRelevance, show jsSplitSpace "user" = ["user"] from by decide]
  simp only [List.foldl,
    show jsIncludes "list users and roles    get" "user" = true from by decide,
    show (jsIncludes "list users and roles    get" (" " ++ "user" ++ " ") ||
      jsStartsWith "list users and roles    get" "user" ||
      jsEndsWith "list users and roles    get" "user") = false from by decide, if_true,
    Bool.false_eq_true, if_false]
  norm_num

theorem relevance_dup_eval :
    Postman.calculateRelevance "user user" "users and roles" = 3 := by
  rw [Postman.calculateRelevance,
    show jsSplitSpace "user user" = ["user", "user"] from by decide]
  simp only [List.foldl,
    show jsIncludes "users and roles" "user" = true from by decide,
    show (jsIncludes "users and roles" (" " ++ "user" ++ " ") ||
      jsStartsWith "users and roles" "user" || jsEndsWith "users and roles" "user") = true
      from by decide, if_true]
  norm_num

theorem specRelevance_dup_eval :
    SpecModel.specRelevance "user user" "users and roles" = 1 := by
  rw [SpecModel.specRelevance,
    show SpecModel.distinctList (jsSplitSpace "user user") = ["user"] from by decide]
  simp only [List.foldl,
    show jsIncludes "users and roles" "user" = true from by decide,
    show SpecModel.wholeWordMatch "user" "users and roles" = false from by decide,
    if_true, Bool.false_eq_true, if_false]
  norm_num

theorem searchRequests_demo_eval :
    Postman.searchRequests [Demo.getUserReq, Demo.listUsersReq, Demo.updateProfileReq]
        "user" 20 =
      [Postman.mkRequestResult "user" Demo.getUserReq,
       Postman.mkRequestResult "user" Demo.listUsersReq] := by
  rw [Postman.searchRequests]
  rw [show jsToLower "user" = "user" from by decide]
  rw [show takeCollect
      (fun r => if jsIncludes (Postman.requestSearchText r) "user" then
        some (Postman.mkRequestResult "user" r) else none)
      20 [Demo.getUserReq, Demo.listUsersReq, Demo.updateProfileReq] =
      [Postman.mkRequestResult "user" Demo.getUserReq,
       Postman.mkRequestResult "user" Demo.listUsersReq] from ?_]
  · rw [Postman.sortByRelevance]
    simp only [List.foldl, Postman.insertByRelevance]
    rw [if_neg]
    rw [show (Postman.mkRequestResult "user" Demo.getUserReq).relevance =
        Postman.calculateRelevance "user" (Postman.requestSearchText Demo.getUserReq) from rfl,
      show (Postman.mkRequestResult "user" Demo.listUsersReq).relevance =
        Postman.calculateRelevance "user" (Postman.requestSearchText Demo.listUsersReq) from rfl,
      relevance_getUser_eval, relevance_listUsers_eval]
    norm_num
  · simp only [takeCollect,
      show jsIncludes (Postman.requestSearchText Demo.getUserReq) "user" = true from by decide,
      show jsIncludes (Postman.requestSearchText Demo.listUsersReq) "user" = true from by decide,
      show jsIncludes (Postman.requestSearchText Demo.updateProfileReq) "user" = false
        from by decide,
      if_true, Bool.false_eq_true, if_false]
    norm_num

theorem searchRequests_trunc_eval :
    Postman.searchRequests [Demo.listUsersReq, Demo.getUserReq] "user" 1 =
      [Postman.mkRequestResult "user" Demo.listUsersReq] := by
  rw [Postman.searchRequests]
  rw [show jsToLower "user" = "user" from by decide]
  rw [show takeCollect
      (fun r => if jsIncludes (Postman.requestSearchText r) "user" then
        some (Postman.mkRequestResult "user" r) else none)
      1 [Demo.listUsersReq, Demo.getUserReq] =
      [Postman.mkRequestResult "user" Demo.listUsersReq] from ?_]
  · rfl
  · simp only [takeCollect,
      show jsIncludes (Postman.requestSearchText Demo.listUsersReq) "user" = true from by decide,
      if_true]
    norm_num

theorem specSearchRequests_trunc_eval :
    SpecModel.specSearchRequests [Demo.listUsersReq, Demo.getUserReq] "user" 1 =
      [Postman.mkRequestResult "user" Demo.getUserReq] := by
  rw [SpecModel.specSearchRequests, SpecModel.postmanMatches]
  rw [show jsToLower "user" = "user" from by decide]
  simp only [List.filterMap,
    show jsIncludes (Postman.requestSearchText Demo.listUsersReq) "user" = true from by decide,
    show jsIncludes (Postman.requestSearchText Demo.getUserReq) "user" = true from by decide,
    if_true]
  rw [Postman.sortByRelevance]
  simp only [List.foldl, Postman.insertByRelevance]
  rw [if_pos]
  · rfl
  · rw [show (Postman.mkRequestResult "user" Demo.getUserReq).relevance =
        Postman.calculateRelevance "user" (Postman.requestSearchText Demo.getUserReq) from rfl,
      show (Postman.mkRequestResult "user" Demo.listUsersReq).relevance =
        Postman.calculateRelevance "user" (Postman.requestSearchText Demo.listUsersReq) from rfl,
      relevance_getUser_eval, relevance_listUsers_eval]
    norm_num

theorem calculateRelevance_eq_sum (q t : String) :
    Postman.calculateRelevance q t = ((jsSplitSpace q).map (Postman.wordScore t)).sum := by
  rw [Postman.calculateRelevance]
  generalize jsSplitSpace q = ws
  suffices h : ∀ (l : List String) (a : ℚ),
      l.foldl (fun score word =>
        if jsIncludes t word then
          let score := score + 1
          if jsIncludes t (" " ++ word ++ " ") || jsStartsWith t word || jsEndsWith t word then
            score + 1/2
          else score
        else score) a = a + (l.map (Postman.wordScore t)).sum by
    simpa using h ws 0
  intro l
  induction l with
  | nil => intro a; simp
  | cons w rest ih =>
    intro a
    rw [List.foldl_cons, List.map_cons, List.sum_cons, ih]
    by_cases h1 : jsIncludes t w = true
    · by_cases h2 : (jsIncludes t (" " ++ w ++ " ") || jsStartsWith t w ||
          jsEndsWith t w) = true
      · simp only [h1, h2, if_true, Postman.wordScore]
        ring
      · simp only [h1, h2, if_true, Bool.false_eq_true, if_false, Postman.wordScore]
        ring
    · simp only [h1, Bool.false_eq_true, if_false, Postman.wordScore]
      ring

/-- C2 counterexample: for query "user user" against the blob
"users and roles", the implementation scores 3 (each duplicated word counts,
and the blob-prefix "users…" earns the whole-word bonus via `startsWith`),
while the claimed rule (+1 per **distinct** word, +0.5 only for a true
whole-word match) yields 1. -/
theorem C2_relevance_counterexample :
    Postman.calculateRelevance "user user" "users and roles" ≠
      SpecModel.specRelevance "user user" "users and roles" := by
  rw [relevance_dup_eval, specRelevance_dup_eval]
  norm_num

/-- C2 amended: the relevance score is +1 per query-word **occurrence** (the
query split on single spaces, duplicates counted) found as a substring of the
blob, plus +0.5 per such occurrence when the blob contains the word surrounded
by spaces, **starts with it, or ends with it** (a prefix/suffix match earns the
bonus even when it is not a whole word); ties are broken by encounter order
(stable sort).  The claimed example ordering holds: "get user" scores 1.5,
"list users and roles" scores 1, "update profile" does not match. -/
theorem C2_relevance_amended :
    (∀ (q t : String), Postman.calculateRelevance q t =
      ((jsSplitSpace q).map (Postman.wordScore t)).sum) ∧
    Postman.calculateRelevance "user" (Postman.requestSearchText Demo.getUserReq) = 3/2 ∧
    Postman.calculateRelevance "user" (Postman.requestSearchText Demo.listUsersReq) = 1 ∧
    jsIncludes (Postman.requestSearchText Demo.updateProfileReq) "user" = false ∧
    (Postman.searchRequests [Demo.getUserReq, Demo.listUsersReq, Demo.updateProfileReq]
        "user" 20).map (fun r => (r.id, r.relevance)) =
      [("get_user", 3/2), ("list_users_and_roles", 1)] := by
  refine ⟨calculateRelevance_eq_sum, relevance_getUser_eval, relevance_listUsers_eval,
    by decide, ?_⟩
  rw [searchRequests_demo_eval]
  simp only [List.map]
  rw [show (Postman.mkRequestResult "user" Demo.getUserReq).relevance =
      Postman.calculateRelevance "user" (Postman.requestSearchText Demo.getUserReq) from rfl,
    show (Postman.mkRequestResult "user" Demo.listUsersReq).relevance =
      Postman.calculateRelevance "user" (Postman.requestSearchText Demo.listUsersReq) from rfl,
    relevance_getUser_eval, relevance_listUsers_eval]
  simp [Postman.mkRequestResult, Demo.getUserReq, Demo.listUsersReq]

/-- C3: OpenAPI search truncates during the scan with no relevance sort;
the Postman search was claimed to scan fully, sort, then truncate. -/
theorem C3_truncation_counterexample :
    Postman.searchRequests [Demo.listUsersReq, Demo.getUserReq] "user" 1 ≠
      SpecModel.specSearchRequests [Demo.listUsersReq, Demo.getUserReq] "user" 1 := by
  rw [searchRequests_trunc_eval, specSearchRequests_trunc_eval]
  intro h
  have h2 := congrArg (fun l => l.map fun r => Postman.SearchRequestsResult.id r) h
  simp only [List.map] at h2
  exact absurd h2 (by decide)

/-- C3 amended: the OpenAPI search stops collecting at the limit during the
scan and applies no sort; the Postman search **also** stops collecting at the
limit during the scan, and then sorts only the collected (at most `limit`)
results by relevance descending. -/
theorem C3_truncation_amended :
    (∀ (paths : OpenAPI.Paths) (q : String) (lim : Nat), 1 ≤ lim →
      OpenAPI.searchEndpoints paths q lim = (SpecModel.openApiMatches paths q).take lim) ∧
    (∀ (reqs : List Postman.PRequest) (q : String) (lim : Nat), 1 ≤ lim →
      Postman.searchRequests reqs q lim =
        Postman.sortByRelevance ((SpecModel.postmanMatches reqs q).take lim)) := by
  constructor
  · intro paths q lim h
    simp only [OpenAPI.searchEndpoints, SpecModel.openApiMatches]
    exact takeCollect_eq_take_filterMap _ lim h _
  · intro reqs q lim h
    simp only [Postman.searchRequests, SpecModel.postmanMatches]
    rw [takeCollect_eq_take_filterMap _ lim h]

/-- C3 witness: instantiations of both per-format truncation characterizations. -/
theorem C3_truncation_amended_witness :
    OpenAPI.searchEndpoints Demo.petsPaths "pets" 20 =
      (SpecModel.openApiMatches Demo.petsPaths "pets").take 20 ∧
    Postman.searchRequests [Demo.getUserReq] "user" 5 =
      Postman.sortByRelevance ((SpecModel.postmanMatches [Demo.getUserReq] "user").take 5) :=
  ⟨C3_truncation_amended.1 Demo.petsPaths "pets" 20 (by decide),
   C3_truncation_amended.2 [Demo.getUserReq] "user" 5 (by decide)⟩

theorem takeWordRun_append_brace (w rs : List Char) (hw : ∀ c ∈ w, isWordChar c = true) :
    Postman.takeWordRun (w ++ '}' :: rs) = (w, '}' :: rs) := by
  induction w with
  | nil => simp [Postman.takeWordRun, show isWordChar '}' = false from by decide]
  | cons c cs ih =>
    have hc : isWordChar c = true := hw c (by simp)
    have ih2 := ih (fun d hd => hw d (by simp [hd]))
    simp [Postman.takeWordRun, hc, ih2]

/-- C7: `executeRequest` resolves `\x7b\x7bvar\x7d\x7d` tokens against the
Environment first and substitutes caller parameters afterwards; a token with
no matching caller override or environment entry stays as literal token text;
`\x7b\x7bbaseUrl\x7d\x7d/users/:id` with `baseUrl = https://api.test` and
`id = 7` resolves to `https://api.test/users/7`. -/
theorem C7_variable_resolution :
    (∀ (env : StrRecord) (params : ValRecord) (url : String),
      Postman.postmanFinalUrl env params url =
        Postman.substPathParamsP params (Postman.resolveVariables env url)) ∧
    (∀ (env : StrRecord) (w : String), w.data ≠ [] → (∀ c ∈ w.data, isWordChar c = true) →
      recGet? env w = none →
      Postman.resolveVariables env ("\x7b\x7b" ++ w ++ "\x7d\x7d") =
        "\x7b\x7b" ++ w ++ "\x7d\x7d") ∧
    (∀ (url : String), Postman.substPathParamsP [] url = url) ∧
    Postman.postmanFinalUrl [("baseUrl", "https://api.test")] [("id", JSValue.str "7")]
        "\x7b\x7bbaseUrl\x7d\x7d/users/:id" = "https://api.test/users/7" ∧
    Postman.postmanFinalUrl [] [] "\x7b\x7bbaseUrl\x7d\x7d/users/:id" =
      "\x7b\x7bbaseUrl\x7d\x7d/users/:id" := by
  refine ⟨fun env params url => rfl, ?_, fun url => rfl, ?_, ?_⟩
  · intro env w hne hw henv
    have hdata : ("\x7b\x7b" ++ w ++ "\x7d\x7d").data =
        '{' :: '{' :: (w.data ++ '}' :: ['}']) := by
      rw [String.data_append, String.data_append]
      rfl
    rw [Postman.resolveVariables, hdata]
    rw [Postman.resolveVarsL]
    simp only [reduceIte, takeWordRun_append_brace w.data ['}'] hw]
    simp only [hne, List.take, reduceIte, ne_eq, not_false_iff, true_and, if_pos]
    have hmk : ({ data := w.data } : String) = w := rfl
    have hdrop : List.drop 2 ['}', '}'] = ([] : List Char) := rfl
    rw [hdrop, Postman.resolveVarsL, List.append_nil, Postman.envLookupOr, hmk, henv]
    apply congrArg String.mk
    simp
  · simp [Postman.postmanFinalUrl, Postman.resolveVariables, Postman.resolveVarsL,
      Postman.takeWordRun, Postman.envLookupOr, recGet?, isWordChar, Postman.substPathParamsP,
      jsReplaceFirst, replaceFirstL, leadsWith, encodeURIComponent, jsToString, charUtf8,
      isUnescapedURI]
  · simp [Postman.postmanFinalUrl, Postman.resolveVariables, Postman.resolveVarsL,
      Postman.takeWordRun, Postman.envLookupOr, recGet?, isWordChar, Postman.substPathParamsP]

/-- C7 witness: an unresolved `\x7b\x7bbaseUrl\x7d\x7d` token with an empty
environment is passed through literally. -/
theorem C7_variable_resolution_witness :
    Postman.resolveVariables [] ("\x7b\x7b" ++ "baseUrl" ++ "\x7d\x7d") =
      "\x7b\x7b" ++ "baseUrl" ++ "\x7d\x7d" :=
  C7_variable_resolution.2.1 [] "baseUrl" (by decide) (by decide) (by decide)

end SwagMcp
